import Mathlib

/-!
Verification of the videoServer2026 core: a shallow embedding of the
on-demand transcoding service (`app/services/transcoding_service.py`),
the HLS conversion service (`app/services/hls_service.py`) and the
byte-range streaming endpoint (`app/api/v1/videos.py`), with theorems
settling the specified properties of these components.

Python strings are modelled as `List Char` where character-level
operations matter; external effects (ffmpeg/ffprobe runs, the
filesystem, the clock) are modelled as explicit state and oracles.
-/

namespace VideoServer

/-! ## Python primitives

Executable models of the Python string operations used by the code:
`str.replace`, `str.split` with a one-character separator, and `int()`.
All are structurally recursive (a fuel argument bounds `replace`, with
the fuel instantiated to the string length, which is enough since a
non-empty pattern consumes at least one character per match), so that
every definition evaluates inside the kernel.
-/

/-- One attempt to strip `pat` from the front of a character list;
`some rest` when `pat` is a prefix, `none` otherwise. -/
def dropPat : List Char → List Char → Option (List Char)
  | [], rest => some rest
  | _ :: _, [] => none
  | p :: ps, c :: cs => if c = p then dropPat ps cs else none

/-- Fuel-bounded body of Python `str.replace`: replaces every
non-overlapping occurrence of `pat` by `rep`, scanning left to right. -/
def pyReplaceFuel (pat rep : List Char) : Nat → List Char → List Char
  | 0, s => s
  | _ + 1, [] => []
  | fuel + 1, c :: rest =>
    match dropPat pat (c :: rest) with
    | some rest2 => rep ++ pyReplaceFuel pat rep fuel rest2
    | none => c :: pyReplaceFuel pat rep fuel rest

/-- Python `s.replace(pat, rep)` for a non-empty pattern. -/
def pyReplace (pat rep s : List Char) : List Char :=
  pyReplaceFuel pat rep s.length s

/-- Python `s.split(sep)` for a one-character separator: `"".split` is
`[""]`, separators at the ends produce empty fields. -/
def pySplit (sep : Char) : List Char → List (List Char)
  | [] => [[]]
  | c :: rest =>
    let r := pySplit sep rest
    if c = sep then [] :: r
    else
      match r with
      | [] => [[c]]
      | g :: gs => (c :: g) :: gs

/-- Strip ASCII whitespace from both ends, as Python `int()` does before
parsing. -/
def pyStripWs (cs : List Char) : List Char :=
  ((cs.dropWhile Char.isWhitespace).reverse.dropWhile Char.isWhitespace).reverse

/-- Digit-group parser for Python `int()`: decimal digits with single
underscores allowed between digits only. `acc` is the value parsed so
far. -/
def pyDigitsCore : Nat → List Char → Option Nat
  | acc, [] => some acc
  | acc, c :: rest =>
    if c.isDigit then pyDigitsCore (10 * acc + (c.toNat - 48)) rest
    else if c = '_' then
      match rest with
      | [] => none
      | d :: rest2 =>
        if d.isDigit then pyDigitsCore (10 * acc + (d.toNat - 48)) rest2
        else none
    else none

/-- A non-empty digit group must start with a digit. -/
def pyDigits : List Char → Option Nat
  | [] => none
  | c :: rest => if c.isDigit then pyDigitsCore (c.toNat - 48) rest else none

/-- Python `sep.join(lines)`. -/
def pyJoin (sep : String) : List String → String
  | [] => ""
  | [x] => x
  | x :: rest => x ++ sep ++ pyJoin sep rest

/-- Python exceptions that the embedded code can raise. -/
inductive PyError where
  | valueError
  | indexError
deriving DecidableEq

deriving instance DecidableEq for Except

/-- Python `int(s)` on a string: optional surrounding whitespace, an
optional sign, then a non-empty digit group; anything else raises
`ValueError`. -/
def pyInt (cs : List Char) : Except PyError Int :=
  match pyStripWs cs with
  | [] => .error .valueError
  | c :: rest =>
    if c = '+' then
      match pyDigits rest with
      | some n => .ok (n : Int)
      | none => .error .valueError
    else if c = '-' then
      match pyDigits rest with
      | some n => .ok (-(n : Int))
      | none => .error .valueError
    else
      match pyDigits (c :: rest) with
      | some n => .ok (n : Int)
      | none => .error .valueError

/-! ## pathlib model

The services use `pathlib.Path` only through `stem`, `parent` and the
`/` join. Paths are strings with `/` separators. -/

/-- Model of `Path(p).name`: the final path component. -/
def pathName (p : String) : String :=
  String.mk ((pySplit '/' p.data).getLastD [])

/-- Model of `str(Path(p).parent)` restricted to paths that contain a separator:
everything before the final component. -/
def pathParentStr (p : String) : String :=
  String.intercalate "/" ((pySplit '/' p.data).dropLast.map String.mk)

/-- Model of `Path(p).stem`: the final component without its last suffix; a name
whose only dot is leading (or that has no dot) is its own stem. -/
def pathStem (p : String) : String :=
  let n := (pySplit '.' (pathName p).data)
  match n.dropLast with
  | [] => pathName p
  | [[]] => pathName p
  | parts => String.intercalate "." (parts.map String.mk)

/-- Model of `str(dir / file)` for our string paths. -/
def pathJoin (dir file : String) : String :=
  if dir = "" then file else dir ++ "/" ++ file

/-! ## RangeStreamer: the `stream_video` endpoint

Shallow embedding of `app/api/v1/videos.py`, `stream_video`
(lines 421-542), from the point where the resolved file and the `Range`
header are in hand. The file is a byte list; the response records the
status, the `Content-Range` and `Content-Length` headers, and the bytes
produced by the chunked generator. -/

namespace Streamer

/-- Model of `chunk_size = 1024 * 1024  # 1MB chunks` -/
def CHUNK_SIZE : Nat := 1024 * 1024

/-- Parsing block of the range branch:
`range_match = range_header.replace("bytes=", "").split("-")`,
`start = int(range_match[0]) if range_match[0] else 0`,
`end = int(range_match[1]) if range_match[1] else file_size - 1`.
A missing second field raises `IndexError`; a non-numeric field raises
`ValueError` from `int()`. -/
def parseRange (header : String) (file_size : Nat) : Except PyError (Int × Int) :=
  let range_match := pySplit '-' (pyReplace "bytes=".data "".data header.data)
  match range_match.get? 0 with
  | none => .error .indexError
  | some s0 =>
    match (if s0.isEmpty then Except.ok (0 : Int) else pyInt s0) with
    | .error e => .error e
    | .ok start =>
      match range_match.get? 1 with
      | none => .error .indexError
      | some s1 =>
        match (if s1.isEmpty then Except.ok ((file_size : Int) - 1) else pyInt s1) with
        | .error e => .error e
        | .ok endv => .ok (start, endv)

/-- The `iterfile_range` generator loop: repeatedly
`chunk = f.read(min(chunk_size, remaining))`, stopping when `remaining`
reaches 0 or the read comes back empty. `f.read n` at offset `pos` is
`(file.drop pos).take n`. The fuel argument bounds the iteration count;
each iteration consumes at least one byte of `remaining`, so fuel equal
to the initial `remaining` is sufficient. -/
def streamChunks (file : List Nat) : Nat → Nat → Nat → List Nat
  | 0, _, _ => []
  | fuel + 1, pos, remaining =>
    if remaining = 0 then []
    else
      let chunk := (file.drop pos).take (min CHUNK_SIZE remaining)
      if chunk.length = 0 then []
      else chunk ++ streamChunks file fuel (pos + chunk.length) (remaining - chunk.length)

/-- Bytes produced by `iterfile_range()` after `f.seek(start)` with
`remaining = content_length`. -/
def iterfile_range (file : List Nat) (start content_length : Nat) : List Nat :=
  streamChunks file content_length start content_length

/-- The no-range `iterfile()` generator: 1 MiB reads until EOF. -/
def readLoop (file : List Nat) : Nat → Nat → List Nat
  | 0, _ => []
  | fuel + 1, pos =>
    let chunk := (file.drop pos).take CHUNK_SIZE
    if chunk.length = 0 then [] else chunk ++ readLoop file fuel (pos + chunk.length)

/-- Bytes produced by `iterfile()`; one read per iteration advances by a
full chunk, so `file.length + 1` iterations always reach EOF. -/
def iterfile (file : List Nat) : List Nat :=
  readLoop file (file.length + 1) 0

/-- The parts of the `StreamingResponse` that the spec talks about. -/
structure Response where
  status : Nat
  contentRange : Option String
  contentLength : Int
  body : List Nat
deriving DecidableEq

/-- The range branch of `stream_video` (lines 488-522): parse the
header, clamp `end` to `file_size - 1`, respond 206 with
`Content-Range: bytes start-end/size` and the sliced body. A
non-positive `content_length` makes the generator yield nothing. -/
def rangeResponse (file : List Nat) (header : String) : Except PyError Response :=
  let file_size := file.length
  match parseRange header file_size with
  | .error e => .error e
  | .ok (start, endv0) =>
    let endv : Int := min endv0 ((file_size : Int) - 1)
    let content_length : Int := endv - start + 1
    .ok {
      status := 206
      contentRange :=
        some ("bytes " ++ toString start ++ "-" ++ toString endv ++ "/" ++ toString file_size)
      contentLength := content_length
      body := if 0 < content_length then iterfile_range file start.toNat content_length.toNat else []
    }

/-- The no-range branch (lines 524-542): 200, full body. -/
def fullResponse (file : List Nat) : Response :=
  { status := 200
    contentRange := none
    contentLength := (file.length : Int)
    body := iterfile file }

/-- Result of one `stream_video` request: how many times
`increment_view_count` ran, and the response (or the exception escaping
the handler). -/
structure StreamResult where
  increments : Nat
  response : Except PyError Response
deriving DecidableEq

/-- Python truthiness of `request.headers.get("range")`: `None` and the
empty string are falsy. -/
def pyTruthyStr (o : Option String) : Bool :=
  match o with
  | none => false
  | some s => !s.data.isEmpty

/-- Model of `stream_video` from the point where the file is resolved: increment
the view count iff `not range_header` (lines 480-482), then take the
range branch iff `range_header` is truthy (line 488). -/
def stream_video (file : List Nat) (range_header : Option String) : StreamResult :=
  if pyTruthyStr range_header then
    { increments := 0, response := rangeResponse file (range_header.getD "") }
  else
    { increments := 1, response := .ok (fullResponse file) }

/-- HTTP status the client observes: the response status, or 500 when an
exception escapes the handler (FastAPI converts an unhandled exception
into an internal server error). -/
def surfaceStatus (r : Except PyError Response) : Nat :=
  match r with
  | .ok resp => resp.status
  | .error _ => 500

end Streamer

/-! ## Theorems about the range streamer -/

/-- The generator produces exactly the requested slice as long as the
fuel covers the remaining count and the slice lies inside the file. -/
theorem streamChunks_eq (file : List Nat) :
    ∀ fuel remaining pos, remaining ≤ fuel → pos + remaining ≤ file.length →
      Streamer.streamChunks file fuel pos remaining = (file.drop pos).take remaining := by
  intro fuel
  induction fuel with
  | zero =>
    intro remaining pos hr _
    have h0 : remaining = 0 := Nat.le_zero.mp hr
    subst h0
    simp [Streamer.streamChunks]
  | succ fuel ih =>
    intro remaining pos hr hlen
    by_cases h0 : remaining = 0
    · subst h0
      simp [Streamer.streamChunks]
    · rw [Streamer.streamChunks]
      simp only [if_neg h0]
      have hCS : 0 < Streamer.CHUNK_SIZE := by decide
      have hmle : min Streamer.CHUNK_SIZE remaining ≤ remaining := Nat.min_le_right _ _
      have hm1 : 1 ≤ min Streamer.CHUNK_SIZE remaining := by omega
      have hchunklen :
          ((file.drop pos).take (min Streamer.CHUNK_SIZE remaining)).length
            = min Streamer.CHUNK_SIZE remaining := by
        simp only [List.length_take, List.length_drop]
        omega
      rw [hchunklen]
      rw [if_neg (by omega)]
      rw [ih (remaining - min Streamer.CHUNK_SIZE remaining)
            (pos + min Streamer.CHUNK_SIZE remaining) (by omega) (by omega)]
      have hsplit :
          (file.drop pos).take remaining
            = (file.drop pos).take (min Streamer.CHUNK_SIZE remaining)
              ++ ((file.drop pos).drop (min Streamer.CHUNK_SIZE remaining)).take
                  (remaining - min Streamer.CHUNK_SIZE remaining) := by
        rw [← List.take_add]
        congr 1
        omega
      rw [hsplit, List.drop_drop, Nat.add_comm]

/-- C1: for a file of size `S ≥ 1` and a `Range: bytes=start-end` header
whose fields parse (empty start defaulting to 0, empty end defaulting to
`S-1`) with `start ≤ min end (S-1)`, the response is 206 with
`Content-Range: bytes start-e/S` for `e = min end (S-1)`,
`Content-Length = e - start + 1`, and the streamed body is exactly the
`e - start + 1` bytes of the file from offset `start` — the generator
stops at that count even when the final chunk is short. -/
theorem C1_range_request_exact_slice
    (file : List Nat) (header : String) (start endv : Int)
    (hS : 1 ≤ file.length)
    (hparse : Streamer.parseRange header file.length = .ok (start, endv))
    (hstart : 0 ≤ start)
    (hle : start ≤ min endv ((file.length : Int) - 1)) :
    Streamer.stream_video file (some header) =
      { increments := 0
        response := .ok {
          status := 206
          contentRange := some ("bytes " ++ toString start ++ "-"
            ++ toString (min endv ((file.length : Int) - 1)) ++ "/" ++ toString file.length)
          contentLength := min endv ((file.length : Int) - 1) - start + 1
          body := (file.drop start.toNat).take
            (min endv ((file.length : Int) - 1) - start + 1).toNat } } ∧
    ((file.drop start.toNat).take (min endv ((file.length : Int) - 1) - start + 1).toNat).length
      = (min endv ((file.length : Int) - 1) - start + 1).toNat := by
  have htruthy : Streamer.pyTruthyStr (some header) = true := by
    cases hh : header.data with
    | nil =>
      exfalso
      simp [Streamer.parseRange, pyReplace, pyReplaceFuel, pySplit, hh] at hparse
    | cons c cs => simp [Streamer.pyTruthyStr, hh]
  have hmin : min endv ((file.length : Int) - 1) ≤ (file.length : Int) - 1 :=
    min_le_right _ _
  have hpos : 0 < min endv ((file.length : Int) - 1) - start + 1 := by omega
  have hbody :
      Streamer.iterfile_range file start.toNat
          (min endv ((file.length : Int) - 1) - start + 1).toNat
        = (file.drop start.toNat).take
            (min endv ((file.length : Int) - 1) - start + 1).toNat := by
    apply streamChunks_eq file _ _ _ le_rfl
    omega
  constructor
  · simp only [Streamer.stream_video, htruthy, if_true, Option.getD_some]
    simp only [Streamer.rangeResponse, hparse, hbody]
    rw [if_pos hpos]
  · simp only [List.length_take, List.length_drop]
    omega

set_option maxRecDepth 10000 in
/-- C1 witness: `bytes=100-199` on a 1000-byte file yields 206,
`Content-Range: bytes 100-199/1000`, `Content-Length: 100` and bytes
100..199 of the source. -/
theorem C1_witness :
    Streamer.stream_video (List.range 1000) (some "bytes=100-199") =
      { increments := 0
        response := .ok {
          status := 206
          contentRange := some "bytes 100-199/1000"
          contentLength := 100
          body := ((List.range 1000).drop 100).take 100 } } := by
  have h := (C1_range_request_exact_slice (List.range 1000) "bytes=100-199" 100 199
      (by decide) (by decide) (by decide) (by decide)).1
  exact h.trans (by decide)

/-- C8 counterexample: a request carrying a `Range` header whose value
is the empty string still increments the view count once, because
`if not range_header` treats the empty string like an absent header;
this refutes the claim that every request carrying a Range header leaves
the view count unchanged. -/
theorem C8_counterexample :
    (Streamer.stream_video [0, 1, 2] (some "")).increments = 1 := by decide

/-- C8 amended: the view-count increment fires exactly when the `Range`
header is absent or empty (Python falsy) — exactly once then, and zero
times for any request with a non-empty `Range` header. -/
theorem C8_increment_iff_range_falsy
    (file : List Nat) (range_header : Option String) :
    (Streamer.stream_video file range_header).increments
      = if range_header = none ∨ range_header = some "" then 1 else 0 := by
  cases range_header with
  | none => simp [Streamer.stream_video, Streamer.pyTruthyStr]
  | some s =>
    cases s with
    | mk data =>
      cases data with
      | nil => simp [Streamer.stream_video, Streamer.pyTruthyStr]
      | cons c cs =>
        have hne : (⟨c :: cs⟩ : String) ≠ "" := by
          simp [String.ext_iff]
        simp [Streamer.stream_video, Streamer.pyTruthyStr, hne]

/-- C9 counterexample: the malformed header `bytes=abc-` is not rejected
as a client input error; `int("abc")` raises an uncaught `ValueError`,
which surfaces as HTTP 500 (a server error, outside 4xx). -/
theorem C9_counterexample :
    (Streamer.stream_video [0, 1, 2] (some "bytes=abc-")).response
        = .error .valueError ∧
    Streamer.surfaceStatus
        ((Streamer.stream_video [0, 1, 2] (some "bytes=abc-")).response) = 500 ∧
    ¬(400 ≤ Streamer.surfaceStatus
          ((Streamer.stream_video [0, 1, 2] (some "bytes=abc-")).response) ∧
      Streamer.surfaceStatus
          ((Streamer.stream_video [0, 1, 2] (some "bytes=abc-")).response) < 500) := by
  decide

/-- C9 amended: a malformed (non-empty, unparseable) `Range` header is
not handled at the boundary: the `int()` conversion error escapes the
handler unchanged and the client observes a 500 server error; no
partial-content response is produced and nothing is retried. -/
theorem C9_malformed_range_unhandled
    (file : List Nat) (header : String) (e : PyError)
    (hne : header ≠ "")
    (hparse : Streamer.parseRange header file.length = .error e) :
    (Streamer.stream_video file (some header)).response = .error e ∧
    Streamer.surfaceStatus ((Streamer.stream_video file (some header)).response) = 500 := by
  have htruthy : Streamer.pyTruthyStr (some header) = true := by
    cases hh : header.data with
    | nil =>
      exfalso
      apply hne
      cases header with
      | mk data => simp at hh; simp [hh]
    | cons c cs => simp [Streamer.pyTruthyStr, hh]
  constructor
  · simp [Streamer.stream_video, htruthy, Streamer.rangeResponse, hparse]
  · simp [Streamer.stream_video, htruthy, Streamer.rangeResponse, hparse,
      Streamer.surfaceStatus]

/-- C9 witness: `bytes=12x-99` on a 3-byte file produces the uncaught
`ValueError` and a 500. -/
theorem C9_witness :
    (Streamer.stream_video [5, 6, 7] (some "bytes=12x-99")).response
        = .error .valueError ∧
    Streamer.surfaceStatus
        ((Streamer.stream_video [5, 6, 7] (some "bytes=12x-99")).response) = 500 :=
  C9_malformed_range_unhandled [5, 6, 7] "bytes=12x-99" .valueError
    (by decide) (by decide)

/-! ## Transcoding service

Shallow embedding of `app/services/transcoding_service.py`. The
filesystem, the module-level validation cache, the clock and the count
of ffprobe/ffmpeg invocations are carried in an explicit state. A video
file is its size, the ffprobe verdicts (`playable`: a decodable video
stream is present) and the probed resolution. The outcome of one ffmpeg
run (exit code and what it left at the output path) is an oracle
argument. -/

namespace Transcoding

/-- Model of `QualityType = Literal["480p", "720p", "1080p", "4k", "original"]` -/
inductive Quality where
  | q480p
  | q720p
  | q1080p
  | q4k
  | original
deriving DecidableEq

/-- The quality label as the Python string. -/
def qualityStr : Quality → String
  | .q480p => "480p"
  | .q720p => "720p"
  | .q1080p => "1080p"
  | .q4k => "4k"
  | .original => "original"

/-- One entry of `QUALITY_SETTINGS`. -/
structure QSettings where
  width : Nat
  height : Nat
  bitrate : String
  audio_bitrate : String
deriving DecidableEq

/-- Model of `QUALITY_SETTINGS` (lines 20-45); `"original"` has no entry. -/
def QUALITY_SETTINGS : Quality → Option QSettings
  | .q480p => some ⟨854, 480, "1000k", "128k"⟩
  | .q720p => some ⟨1280, 720, "2500k", "192k"⟩
  | .q1080p => some ⟨1920, 1080, "5000k", "192k"⟩
  | .q4k => some ⟨3840, 2160, "20000k", "256k"⟩
  | .original => none

/-- Model of `VALIDATION_CACHE_TTL = 300  # 5 minutes` -/
def VALIDATION_CACHE_TTL : Nat := 300

/-- What the model knows about a file on disk: its byte size and what
ffprobe reports for it (playability and resolution). -/
structure VFile where
  size : Nat
  playable : Bool
  width : Nat
  height : Nat
deriving DecidableEq

/-- Association-list lookup (the filesystem and the validation cache are
maps keyed by path). -/
def alookup {α : Type} : List (String × α) → String → Option α
  | [], _ => none
  | (k, v) :: rest, key => if k = key then some v else alookup rest key

/-- Remove every binding of a key (`os.remove`, `del`). -/
def aerase {α : Type} : List (String × α) → String → List (String × α)
  | [], _ => []
  | (k, v) :: rest, key =>
    if k = key then aerase rest key else (k, v) :: aerase rest key

/-- Overwrite the binding of a key. -/
def aset {α : Type} (l : List (String × α)) (k : String) (v : α) :
    List (String × α) :=
  (k, v) :: aerase l k

/-- The world the transcoding service runs in: files on disk, the
module-level `_validation_cache` (path ↦ (is_valid, timestamp)), the
clock (`time.time()`), a count of ffprobe validation probes, a count of
ffmpeg executions, and the background tasks spawned by
`asyncio.create_task` (input, output, quality) that have not run yet. -/
structure TState where
  files : List (String × VFile)
  cache : List (String × (Bool × Nat))
  now : Nat
  probes : Nat
  encoderRuns : Nat
  spawned : List (String × String × Quality)
deriving DecidableEq

/-- Model of `get_transcoded_path` (lines 48-79): `original` maps to itself,
otherwise `{video_dir}/{stem}_{quality}.mp4`. -/
def get_transcoded_path (original_path : String) (quality : Quality) : String :=
  if quality = .original then original_path
  else
    pathJoin (pathParentStr original_path)
      (pathStem original_path ++ "_" ++ qualityStr quality ++ ".mp4")

/-- Model of `is_valid_video_file` (lines 82-125): missing file is invalid; a
cached verdict younger than the TTL is returned without re-probing;
otherwise ffprobe runs (counted in `probes`) and, when `use_cache`, the
fresh verdict replaces the cache entry. -/
def is_valid_video_file (st : TState) (video_path : String) (use_cache : Bool) :
    Bool × TState :=
  match alookup st.files video_path with
  | none => (false, st)
  | some f =>
    let cached := if use_cache then alookup st.cache video_path else none
    let fresh := match cached with
      | some (_, timestamp) => decide (st.now - timestamp < VALIDATION_CACHE_TTL)
      | none => false
    match cached, fresh with
    | some (is_valid, _), true => (is_valid, st)
    | _, _ =>
      let is_valid := f.playable
      let st2 := { st with
        probes := st.probes + 1
        cache := if use_cache then aset st.cache video_path (is_valid, st.now)
                 else st.cache }
      (is_valid, st2)

/-- Model of `is_transcoded_available` (lines 128-157): `original` is always
available; an existing but invalid transcoded file is deleted and
reported unavailable. -/
def is_transcoded_available (st : TState) (original_path : String)
    (quality : Quality) : Bool × TState :=
  if quality = .original then (true, st)
  else
    let transcoded_path := get_transcoded_path original_path quality
    match alookup st.files transcoded_path with
    | none => (false, st)
    | some _ =>
      let r := is_valid_video_file st transcoded_path true
      if r.1 then (true, r.2)
      else (false, { r.2 with files := aerase r.2.files transcoded_path })

/-- Outcome of one ffmpeg execution: the exit code and what it left on
disk at the output path when it finished (`none` = no output file). -/
structure EncoderRun where
  returncode : Nat
  output : Option VFile
deriving DecidableEq

/-- Result of `transcode_video`: the returned Bool, whether the
undersized-output warning was printed, and the state after the run. -/
structure TranscodeResult where
  ok : Bool
  warned : Bool
  st : TState
deriving DecidableEq

/-- Model of `transcode_video` (lines 160-256): `original` is a no-op success; an
unknown preset fails without running ffmpeg. Otherwise ffmpeg runs
(counted): on exit 0 the function checks the output size and prints a
warning below 1000 bytes but returns `True` and keeps the file; on a
nonzero exit it deletes an existing partial output and returns
`False`. -/
def transcode_video (st : TState) (input_path output_path : String)
    (quality : Quality) (run : EncoderRun) : TranscodeResult :=
  if quality = .original then ⟨true, false, st⟩
  else
    match QUALITY_SETTINGS quality with
    | none => ⟨false, false, st⟩
    | some _ =>
      let st1 := { st with
        encoderRuns := st.encoderRuns + 1
        files := match run.output with
          | some f => aset st.files output_path f
          | none => aerase st.files output_path }
      if run.returncode = 0 then
        let warned := match alookup st1.files output_path with
          | some f => decide (f.size < 1000)
          | none => false
        ⟨true, warned, st1⟩
      else
        let st2 := match alookup st1.files output_path with
          | some _ => { st1 with files := aerase st1.files output_path }
          | none => st1
        ⟨false, false, st2⟩

/-- Model of `get_video_resolution` (lines 259-294): the ffprobe-reported
resolution, `(0, 0)` for a missing file or probe failure. -/
def get_video_resolution (st : TState) (video_path : String) : Nat × Nat :=
  match alookup st.files video_path with
  | some f => (f.width, f.height)
  | none => (0, 0)

/-- Model of `should_use_original` (lines 297-332): `original` trivially; unknown
resolution defaults to transcoding; otherwise use the original iff the
native height is at most the ladder height of the requested quality. -/
def should_use_original (st : TState) (original_path : String)
    (quality : Quality) : Bool :=
  if quality = .original then true
  else
    let r := get_video_resolution st original_path
    if r.1 = 0 ∨ r.2 = 0 then false
    else
      match QUALITY_SETTINGS quality with
      | none => false
      | some s => decide (r.2 ≤ s.height)

/-- The tail of `get_video_for_quality` from the `# Need to transcode`
comment on (lines 387-411): background mode spawns a fire-and-forget
task and returns the original; sync mode runs the encoder and falls back
to the original on failure. -/
def transcodeOnMiss (st : TState) (original_path transcoded_path : String)
    (quality : Quality) (transcode_in_background : Bool) (run : EncoderRun) :
    Option String × TState :=
  if transcode_in_background then
    (some original_path,
      { st with spawned := st.spawned ++ [(original_path, transcoded_path, quality)] })
  else
    let r := transcode_video st original_path transcoded_path quality run
    if r.ok then (some transcoded_path, r.st) else (some original_path, r.st)

/-- Model of `get_video_for_quality` (lines 335-411). `run` is the oracle for the
ffmpeg execution in sync mode (unused in background mode, where the
spawned task has not run yet when the call returns). -/
def get_video_for_quality (st : TState) (original_path : String)
    (quality : Quality) (transcode_in_background : Bool) (run : EncoderRun) :
    Option String × TState :=
  if quality = .original then (some original_path, st)
  else
    match alookup st.files original_path with
    | none => (none, st)
    | some _ =>
      if should_use_original st original_path quality then (some original_path, st)
      else
        let transcoded_path := get_transcoded_path original_path quality
        match alookup st.files transcoded_path with
        | some _ =>
          let r := is_valid_video_file st transcoded_path true
          if r.1 then (some transcoded_path, r.2)
          else
            transcodeOnMiss { r.2 with files := aerase r.2.files transcoded_path }
              original_path transcoded_path quality transcode_in_background run
        | none =>
          transcodeOnMiss st original_path transcoded_path quality
            transcode_in_background run

end Transcoding

/-! ## Theorems about the transcoding service -/

namespace Transcoding

/-- Looking up the key just set returns the new value. -/
theorem alookup_aset {α : Type} (l : List (String × α)) (k : String) (v : α) :
    alookup (aset l k v) k = some v := by
  simp [aset, alookup]

/-- Looking up an erased key misses. -/
theorem alookup_aerase {α : Type} (l : List (String × α)) (k : String) :
    alookup (aerase l k) k = none := by
  induction l with
  | nil => simp [aerase, alookup]
  | cons p rest ih =>
    obtain ⟨k1, v1⟩ := p
    by_cases h : k1 = k
    · simp [aerase, h, ih]
    · simp [aerase, alookup, h, ih]

end Transcoding

/-- C2: when the native resolution probes to nonzero width and height
and the native height is at most the ladder height of the requested
preset, `should_use_original` is `True` and `get_video_for_quality`
(either mode) returns the original path with the state untouched: no
cache entry, no spawned task, no encoder run. -/
theorem C2_no_upscale_uses_original
    (st : Transcoding.TState) (original_path : String)
    (quality : Transcoding.Quality) (s : Transcoding.QSettings)
    (f : Transcoding.VFile) (bg : Bool) (run : Transcoding.EncoderRun)
    (hf : Transcoding.alookup st.files original_path = some f)
    (hw : f.width ≠ 0) (hh : f.height ≠ 0)
    (hs : Transcoding.QUALITY_SETTINGS quality = some s)
    (hle : f.height ≤ s.height) :
    Transcoding.should_use_original st original_path quality = true ∧
    Transcoding.get_video_for_quality st original_path quality bg run
      = (some original_path, st) := by
  have hq : quality ≠ .original := by
    intro h
    rw [h] at hs
    simp [Transcoding.QUALITY_SETTINGS] at hs
  have hsuo : Transcoding.should_use_original st original_path quality = true := by
    simp [Transcoding.should_use_original, hq, Transcoding.get_video_resolution,
      hf, hs, hw, hh, hle]
  exact ⟨hsuo, by
    simp [Transcoding.get_video_for_quality, hq, hf, hsuo]⟩

/-- C2 witness: an 1000×800 original requested at 1080p (ladder height
1080) is served as the original, with no state change. -/
theorem C2_witness :
    Transcoding.should_use_original
        ⟨[("/videos/UUID.mp4", ⟨5000000, true, 1000, 800⟩)], [], 0, 0, 0, []⟩
        "/videos/UUID.mp4" .q1080p = true ∧
    Transcoding.get_video_for_quality
        ⟨[("/videos/UUID.mp4", ⟨5000000, true, 1000, 800⟩)], [], 0, 0, 0, []⟩
        "/videos/UUID.mp4" .q1080p true ⟨0, none⟩
      = (some "/videos/UUID.mp4",
         ⟨[("/videos/UUID.mp4", ⟨5000000, true, 1000, 800⟩)], [], 0, 0, 0, []⟩) :=
  C2_no_upscale_uses_original
    ⟨[("/videos/UUID.mp4", ⟨5000000, true, 1000, 800⟩)], [], 0, 0, 0, []⟩
    "/videos/UUID.mp4" .q1080p ⟨1920, 1080, "5000k", "192k"⟩
    ⟨5000000, true, 1000, 800⟩ true ⟨0, none⟩
    (by decide) (by decide) (by decide) (by decide) (by decide)

/-- C3 counterexample: two background-mode calls for the same
`(asset, 720p)` key, both missing the cache (the realistic asyncio
interleaving: neither fire-and-forget task has started ffmpeg when the
second request is handled), spawn two identical encode tasks instead of
one — there is no job registry, so the claimed single-flight behaviour
(exactly one encoder invocation, later callers attaching to it) fails at
N = 2. -/
theorem C3_counterexample :
    ((Transcoding.get_video_for_quality
        (Transcoding.get_video_for_quality
          ⟨[("/videos/UUID.mp4", ⟨5000000, true, 1920, 1080⟩)], [], 0, 0, 0, []⟩
          "/videos/UUID.mp4" .q720p true ⟨0, none⟩).2
        "/videos/UUID.mp4" .q720p true ⟨0, none⟩).2).spawned
      = [("/videos/UUID.mp4", "/videos/UUID_720p.mp4", .q720p),
         ("/videos/UUID.mp4", "/videos/UUID_720p.mp4", .q720p)] := by
  decide

/-- C3 amended: there is no single-flight coordination. Every
background-mode call whose quality needs transcoding and whose
transcoded file is absent spawns its own fire-and-forget encode task for
the key and returns the original path, so N concurrent cache-missing
callers start N encoder invocations rather than attaching to one job. -/
theorem C3_every_miss_spawns_a_task
    (st : Transcoding.TState) (original_path : String)
    (quality : Transcoding.Quality) (run : Transcoding.EncoderRun)
    (f : Transcoding.VFile)
    (hq : quality ≠ .original)
    (hf : Transcoding.alookup st.files original_path = some f)
    (hsuo : Transcoding.should_use_original st original_path quality = false)
    (hmiss : Transcoding.alookup st.files
        (Transcoding.get_transcoded_path original_path quality) = none) :
    Transcoding.get_video_for_quality st original_path quality true run
      = (some original_path,
         { st with spawned := st.spawned
            ++ [(original_path,
                 Transcoding.get_transcoded_path original_path quality, quality)] }) := by
  simp [Transcoding.get_video_for_quality, hq, hf, hsuo, hmiss,
    Transcoding.transcodeOnMiss]

/-- C3 witness for the amended claim: one cache-missing background call
appends exactly one spawned encode task. -/
theorem C3_witness :
    Transcoding.get_video_for_quality
        ⟨[("/videos/UUID.mp4", ⟨5000000, true, 1920, 1080⟩)], [], 0, 0, 0, []⟩
        "/videos/UUID.mp4" .q720p true ⟨0, none⟩
      = (some "/videos/UUID.mp4",
         ⟨[("/videos/UUID.mp4", ⟨5000000, true, 1920, 1080⟩)], [], 0, 0, 0,
          [("/videos/UUID.mp4", "/videos/UUID_720p.mp4", .q720p)]⟩) := by
  have h := C3_every_miss_spawns_a_task
    ⟨[("/videos/UUID.mp4", ⟨5000000, true, 1920, 1080⟩)], [], 0, 0, 0, []⟩
    "/videos/UUID.mp4" .q720p ⟨0, none⟩ ⟨5000000, true, 1920, 1080⟩
    (by decide) (by decide) (by decide) (by decide)
  exact h.trans (by decide)

/-- C4 counterexample: the encoder exits 0 but leaves a 500-byte output;
`transcode_video` still returns `True` and the undersized file stays on
disk (only a warning is printed), refuting the claimed
classify-as-failure-and-delete behaviour. -/
theorem C4_counterexample :
    (Transcoding.transcode_video
        ⟨[("/videos/UUID.mp4", ⟨5000000, true, 1920, 1080⟩)], [], 0, 0, 0, []⟩
        "/videos/UUID.mp4" "/videos/UUID_480p.mp4" .q480p
        ⟨0, some ⟨500, false, 854, 480⟩⟩).ok = true ∧
    Transcoding.alookup
        (Transcoding.transcode_video
          ⟨[("/videos/UUID.mp4", ⟨5000000, true, 1920, 1080⟩)], [], 0, 0, 0, []⟩
          "/videos/UUID.mp4" "/videos/UUID_480p.mp4" .q480p
          ⟨0, some ⟨500, false, 854, 480⟩⟩).st.files "/videos/UUID_480p.mp4"
      = some ⟨500, false, 854, 480⟩ := by
  decide

/-- C4 amended: on a zero exit status `transcode_video` returns `True`
no matter how small the output is; an output under 1000 bytes only
triggers the suspicious-size warning and is left on disk. (Deletion of
partial output happens only on a nonzero exit.) -/
theorem C4_undersized_output_kept
    (st : Transcoding.TState) (input_path output_path : String)
    (quality : Transcoding.Quality) (run : Transcoding.EncoderRun)
    (s : Transcoding.QSettings) (f : Transcoding.VFile)
    (hs : Transcoding.QUALITY_SETTINGS quality = some s)
    (hrc : run.returncode = 0)
    (hout : run.output = some f)
    (hsize : f.size < 1000) :
    (Transcoding.transcode_video st input_path output_path quality run).ok = true ∧
    (Transcoding.transcode_video st input_path output_path quality run).warned = true ∧
    Transcoding.alookup
        (Transcoding.transcode_video st input_path output_path quality run).st.files
        output_path
      = some f := by
  have hq : quality ≠ .original := by
    intro h
    rw [h] at hs
    simp [Transcoding.QUALITY_SETTINGS] at hs
  simp [Transcoding.transcode_video, hq, hs, hrc, hout,
    Transcoding.alookup_aset, hsize]

/-- C4 witness for the amended claim at the concrete undersized run. -/
theorem C4_witness :
    (Transcoding.transcode_video
        ⟨[("/videos/a.mp4", ⟨4000, true, 1920, 1080⟩)], [], 7, 0, 0, []⟩
        "/videos/a.mp4" "/videos/a_720p.mp4" .q720p
        ⟨0, some ⟨900, false, 1280, 720⟩⟩).ok = true ∧
    (Transcoding.transcode_video
        ⟨[("/videos/a.mp4", ⟨4000, true, 1920, 1080⟩)], [], 7, 0, 0, []⟩
        "/videos/a.mp4" "/videos/a_720p.mp4" .q720p
        ⟨0, some ⟨900, false, 1280, 720⟩⟩).warned = true ∧
    Transcoding.alookup
        (Transcoding.transcode_video
          ⟨[("/videos/a.mp4", ⟨4000, true, 1920, 1080⟩)], [], 7, 0, 0, []⟩
          "/videos/a.mp4" "/videos/a_720p.mp4" .q720p
          ⟨0, some ⟨900, false, 1280, 720⟩⟩).st.files "/videos/a_720p.mp4"
      = some ⟨900, false, 1280, 720⟩ :=
  C4_undersized_output_kept
    ⟨[("/videos/a.mp4", ⟨4000, true, 1920, 1080⟩)], [], 7, 0, 0, []⟩
    "/videos/a.mp4" "/videos/a_720p.mp4" .q720p
    ⟨0, some ⟨900, false, 1280, 720⟩⟩ ⟨1280, 720, "2500k", "192k"⟩
    ⟨900, false, 1280, 720⟩
    (by decide) (by decide) (by decide) (by decide)

/-- C10: a cached invalid verdict younger than the 300-second TTL wins
over the actual file: `is_valid_video_file` answers invalid without any
ffprobe run even though the file now at that path is playable, and
`is_transcoded_available` therefore deletes the (valid) replacement file
and reports the rendition unavailable — while the cache entry survives
untouched, so this repeats until the TTL expires. -/
theorem C10_stale_invalid_verdict_wins
    (st : Transcoding.TState) (original_path : String)
    (quality : Transcoding.Quality) (s : Transcoding.QSettings)
    (f : Transcoding.VFile) (ts : Nat)
    (hs : Transcoding.QUALITY_SETTINGS quality = some s)
    (hfile : Transcoding.alookup st.files
        (Transcoding.get_transcoded_path original_path quality) = some f)
    (hplay : f.playable = true)
    (hcache : Transcoding.alookup st.cache
        (Transcoding.get_transcoded_path original_path quality) = some (false, ts))
    (hfresh : st.now - ts < Transcoding.VALIDATION_CACHE_TTL) :
    Transcoding.is_valid_video_file st
        (Transcoding.get_transcoded_path original_path quality) true = (false, st) ∧
    Transcoding.is_transcoded_available st original_path quality
      = (false, { st with files := (Transcoding.aerase st.files
          (Transcoding.get_transcoded_path original_path quality)) }) ∧
    (Transcoding.is_transcoded_available st original_path quality).2.cache = st.cache ∧
    (Transcoding.is_transcoded_available st original_path quality).2.probes = st.probes := by
  have hq : quality ≠ .original := by
    intro h
    rw [h] at hs
    simp [Transcoding.QUALITY_SETTINGS] at hs
  have hvalid : Transcoding.is_valid_video_file st
      (Transcoding.get_transcoded_path original_path quality) true = (false, st) := by
    simp [Transcoding.is_valid_video_file, hfile, hcache, hfresh]
  have havail : Transcoding.is_transcoded_available st original_path quality
      = (false, { st with files := (Transcoding.aerase st.files
          (Transcoding.get_transcoded_path original_path quality)) }) := by
    simp [Transcoding.is_transcoded_available, hq, hfile, hvalid]
  exact ⟨hvalid, havail, by rw [havail], by rw [havail]⟩

/-- C10 witness: a playable 720p replacement file sits at the transcoded
path, but the cache still holds a fresh invalid verdict (age 100 < 300);
the file is deleted and the rendition reported unavailable. -/
theorem C10_witness :
    Transcoding.is_valid_video_file
        ⟨[("/videos/UUID_720p.mp4", ⟨9999, true, 1280, 720⟩)],
         [("/videos/UUID_720p.mp4", (false, 100))], 200, 0, 0, []⟩
        "/videos/UUID_720p.mp4" true
      = (false,
         ⟨[("/videos/UUID_720p.mp4", ⟨9999, true, 1280, 720⟩)],
          [("/videos/UUID_720p.mp4", (false, 100))], 200, 0, 0, []⟩) ∧
    Transcoding.is_transcoded_available
        ⟨[("/videos/UUID_720p.mp4", ⟨9999, true, 1280, 720⟩)],
         [("/videos/UUID_720p.mp4", (false, 100))], 200, 0, 0, []⟩
        "/videos/UUID.mp4" .q720p
      = (false,
         ⟨[], [("/videos/UUID_720p.mp4", (false, 100))], 200, 0, 0, []⟩) := by
  have h := C10_stale_invalid_verdict_wins
    ⟨[("/videos/UUID_720p.mp4", ⟨9999, true, 1280, 720⟩)],
     [("/videos/UUID_720p.mp4", (false, 100))], 200, 0, 0, []⟩
    "/videos/UUID.mp4" .q720p ⟨1280, 720, "2500k", "192k"⟩
    ⟨9999, true, 1280, 720⟩ 100
    (by decide) (by decide) (by decide) (by decide) (by decide)
  exact ⟨h.1.trans (by decide), h.2.1.trans (by decide)⟩

/-! ## HLS conversion service

Shallow embedding of `app/services/hls_service.py` and the HLS endpoints
in `app/api/v1/videos.py`. The filesystem holds text files (the m3u8
playlists) keyed by path; the outcome of the per-quality ffmpeg
segmenting run is an oracle: whether it exits 0 and the playlist content
it writes when it does. -/

namespace Hls

/-- Model of `QualityType = Literal["480p", "720p", "1080p", "4k"]` — the HLS
service has no `"original"`. -/
inductive HQuality where
  | q480p
  | q720p
  | q1080p
  | q4k
deriving DecidableEq

/-- The quality label as the Python string. -/
def hqStr : HQuality → String
  | .q480p => "480p"
  | .q720p => "720p"
  | .q1080p => "1080p"
  | .q4k => "4k"

/-- One entry of `HLS_QUALITY_SETTINGS`. -/
structure HSettings where
  width : Nat
  height : Nat
  bitrate : String
  audio_bitrate : String
deriving DecidableEq

/-- Model of `HLS_QUALITY_SETTINGS` (lines 16-41). -/
def HLS_QUALITY_SETTINGS : HQuality → HSettings
  | .q480p => ⟨854, 480, "1000k", "128k"⟩
  | .q720p => ⟨1280, 720, "2500k", "192k"⟩
  | .q1080p => ⟨1920, 1080, "5000k", "192k"⟩
  | .q4k => ⟨3840, 2160, "20000k", "256k"⟩

/-- Text files on disk, keyed by path. -/
structure HlsFS where
  files : List (String × String)
deriving DecidableEq

/-- Model of `get_hls_directory` (lines 44-61): `{parent}/{stem}_hls`. -/
def get_hls_directory (original_path : String) : String :=
  pathJoin (pathParentStr original_path) (pathStem original_path ++ "_hls")

/-- Model of `get_master_playlist_path` (lines 64-67). -/
def get_master_playlist_path (original_path : String) : String :=
  pathJoin (get_hls_directory original_path) "master.m3u8"

/-- Model of `get_quality_playlist_path` (lines 70-73). -/
def get_quality_playlist_path (original_path : String) (quality : HQuality) : String :=
  pathJoin (pathJoin (get_hls_directory original_path) (hqStr quality)) "playlist.m3u8"

/-- Model of `is_hls_available` (lines 76-84): `master.m3u8` exists. -/
def is_hls_available (fs : HlsFS) (original_path : String) : Bool :=
  (Transcoding.alookup fs.files (get_master_playlist_path original_path)).isSome

/-- Character-level string prefix test (kernel-computable). -/
def strStartsWithChars : List Char → List Char → Bool
  | _, [] => true
  | [], _ :: _ => false
  | c :: cs, p :: ps => c = p && strStartsWithChars cs ps

/-- Model of `hls_dir.exists()` in a filesystem of files: some file lives under
the directory. -/
def dirExists (fs : HlsFS) (dir : String) : Bool :=
  fs.files.any (fun p => strStartsWithChars p.1.data (dir ++ "/").data)

/-- Model of `get_available_hls_qualities` (lines 87-104): empty if the HLS
directory is missing, else the qualities whose `playlist.m3u8` exists,
in ladder order. -/
def get_available_hls_qualities (fs : HlsFS) (original_path : String) : List String :=
  if ¬dirExists fs (get_hls_directory original_path) then []
  else
    ([.q480p, .q720p, .q1080p, .q4k] : List HQuality).filterMap fun q =>
      if (Transcoding.alookup fs.files (get_quality_playlist_path original_path q)).isSome
      then some (hqStr q) else none

/-- Outcome of one per-quality ffmpeg segmenting run: exit-0 success and
the playlist content written on success. -/
structure HlsRun where
  success : Bool
  playlistContent : String
deriving DecidableEq

/-- Model of `convert_to_hls_quality` (lines 107-178): run ffmpeg in segmenting
mode; on exit 0 the per-quality playlist (and its segments) are on disk
and `True` is returned, otherwise `False`. -/
def convert_to_hls_quality (fs : HlsFS) (original_path : String)
    (quality : HQuality) (runs : HQuality → HlsRun) : Bool × HlsFS :=
  let run := runs quality
  if run.success then
    (true, ⟨Transcoding.aset fs.files (get_quality_playlist_path original_path quality)
        run.playlistContent⟩)
  else (false, fs)

/-- The `lines` list built by `create_master_playlist` (lines 191-199):
header lines, then per quality a `#EXT-X-STREAM-INF` line (bandwidth
`int(bitrate.replace("k", "000"))`, resolution `{width}x{height}`) and
the relative playlist reference. -/
def create_master_lines (qualities : List HQuality) : List String :=
  ["#EXTM3U", "#EXT-X-VERSION:3"] ++ qualities.flatMap (fun quality =>
    let settings := HLS_QUALITY_SETTINGS quality
    let bandwidth := (pyDigits (pyReplace "k".data "000".data settings.bitrate.data)).getD 0
    let resolution := toString settings.width ++ "x" ++ toString settings.height
    ["#EXT-X-STREAM-INF:BANDWIDTH=" ++ toString bandwidth ++ ",RESOLUTION=" ++ resolution,
     hqStr quality ++ "/playlist.m3u8"])

/-- Model of `create_master_playlist` (lines 181-204): the content written to
`master.m3u8` — the lines joined with newlines plus a trailing
newline. -/
def create_master_playlist (qualities : List HQuality) : String :=
  pyJoin "\n" (create_master_lines qualities) ++ "\n"

/-- The per-quality loop of `convert_video_to_hls` (lines 232-236):
returns the successful qualities in attempt order and the filesystem
after all runs. -/
def convertLoop (original_path : String) (runs : HQuality → HlsRun) :
    List HQuality → HlsFS → List HQuality × HlsFS
  | [], fs => ([], fs)
  | quality :: rest, fs =>
    let r := convert_to_hls_quality fs original_path quality runs
    let rec2 := convertLoop original_path runs rest r.2
    (if r.1 then quality :: rec2.1 else rec2.1, rec2.2)

/-- Model of `convert_video_to_hls` (lines 207-249): attempt every requested
quality; with zero successes return `False` and write nothing more; else
write the master playlist over the successful qualities and return
`True`. -/
def convert_video_to_hls (fs : HlsFS) (original_path : String)
    (qualities : List HQuality) (runs : HQuality → HlsRun) : Bool × HlsFS :=
  let r := convertLoop original_path runs qualities fs
  if r.1.isEmpty then (false, r.2)
  else
    (true, ⟨Transcoding.aset r.2.files (get_master_playlist_path original_path)
        (create_master_playlist r.1)⟩)

/-- What the `POST /{video_id}/convert-hls` endpoint returns
(videos.py lines 1165-1213), plus how many background conversion tasks
it spawned. -/
structure ConvertEndpointResult where
  message : String
  available_qualities : Option (List String)
  tasksSpawned : Nat
deriving DecidableEq

/-- The already-converted check and background spawn of the convert-hls
endpoint (lines 1198-1213). -/
def convertHlsEndpoint (fs : HlsFS) (file_path : String) : ConvertEndpointResult :=
  if is_hls_available fs file_path then
    { message := "HLS conversion already completed"
      available_qualities := some (get_available_hls_qualities fs file_path)
      tasksSpawned := 0 }
  else
    { message := "HLS conversion started"
      available_qualities := none
      tasksSpawned := 1 }

/-- The JSON snapshot of `GET /{video_id}/hls/progress`. -/
structure ProgressSnapshot where
  status : String
  progress : Nat
  current_quality : Option String
  total_qualities : Nat
  completed_qualities : Nat
  error : Option String
deriving DecidableEq

/-- Python exception escaping the progress endpoint. -/
inductive PyExc where
  | attributeError
deriving DecidableEq

/-- Model of `get_hls_conversion_progress` (videos.py lines 1378-1435): when
`master.m3u8` exists it returns the completed snapshot; otherwise the
code calls `hls_service.get_conversion_progress(video.file_path)` — a
function that does not exist anywhere in `app/services/hls_service.py`
(or the rest of the repository), so the attribute access raises
`AttributeError` instead of producing the documented `not_started`
snapshot. -/
def get_hls_conversion_progress (fs : HlsFS) (file_path : String) :
    Except PyExc ProgressSnapshot :=
  if is_hls_available fs file_path then
    .ok { status := "completed", progress := 100, current_quality := none,
          total_qualities := 4, completed_qualities := 4, error := none }
  else
    .error .attributeError

end Hls

/-! ## Theorems about the HLS service -/

namespace Transcoding

/-- Setting one key leaves the lookup of a different key alone. -/
theorem alookup_aerase_ne {α : Type} (l : List (String × α)) (k1 k2 : String)
    (h : k1 ≠ k2) : alookup (aerase l k1) k2 = alookup l k2 := by
  induction l with
  | nil => simp [aerase]
  | cons p rest ih =>
    obtain ⟨k, v⟩ := p
    by_cases hk : k = k1
    · subst hk
      simp [aerase, alookup, h, ih]
    · simp [aerase, alookup, hk, ih]

/-- Lookup of a different key after a set. -/
theorem alookup_aset_ne {α : Type} (l : List (String × α)) (k1 k2 : String)
    (v : α) (h : k1 ≠ k2) : alookup (aset l k1 v) k2 = alookup l k2 := by
  simp [aset, alookup, h, alookup_aerase_ne l k1 k2 h]

end Transcoding

namespace Hls

/-- A per-quality playlist path never coincides with the master playlist
path of the same asset. -/
theorem quality_playlist_ne_master (original_path : String) (q : HQuality) :
    get_quality_playlist_path original_path q ≠ get_master_playlist_path original_path := by
  unfold get_quality_playlist_path get_master_playlist_path
  generalize get_hls_directory original_path = dir
  by_cases hd : dir = ""
  · subst hd
    cases q <;> decide
  · have hinner : dir ++ "/" ++ hqStr q ≠ "" := by
      intro h
      have hdata := congrArg String.data h
      simp [String.data_append] at hdata
    simp only [pathJoin, if_neg hd, if_neg hinner]
    intro h
    have hdata := congrArg String.data h
    simp only [String.data_append, List.append_assoc] at hdata
    have h1 := List.append_cancel_left hdata
    have h2 := List.append_cancel_left h1
    cases q <;> exact absurd h2 (by decide)

/-- The loop of `convert_video_to_hls` collects exactly the qualities
whose run succeeded, in the requested order. -/
theorem convertLoop_fst (original_path : String) (runs : HQuality → HlsRun) :
    ∀ (qs : List HQuality) (fs : HlsFS),
      (convertLoop original_path runs qs fs).1
        = qs.filter (fun q => (runs q).success) := by
  intro qs
  induction qs with
  | nil => intro fs; simp [convertLoop]
  | cons q rest ih =>
    intro fs
    by_cases hs : (runs q).success
    · simp [convertLoop, convert_to_hls_quality, hs, ih]
    · simp [convertLoop, convert_to_hls_quality, hs, ih]

/-- The loop writes only per-quality playlists, so the master playlist
entry is untouched. -/
theorem convertLoop_master (original_path : String) (runs : HQuality → HlsRun) :
    ∀ (qs : List HQuality) (fs : HlsFS),
      Transcoding.alookup (convertLoop original_path runs qs fs).2.files
          (get_master_playlist_path original_path)
        = Transcoding.alookup fs.files (get_master_playlist_path original_path) := by
  intro qs
  induction qs with
  | nil => intro fs; simp [convertLoop]
  | cons q rest ih =>
    intro fs
    by_cases hs : (runs q).success
    · simp only [convertLoop, convert_to_hls_quality, hs, if_true]
      rw [ih]
      exact Transcoding.alookup_aset_ne _ _ _ _ (quality_playlist_ne_master original_path q)
    · simp only [convertLoop, convert_to_hls_quality, hs, if_false, Bool.false_eq_true]
      rw [ih]

/-- The `lines` of the master playlist, with the bandwidth and
resolution computations evaluated per quality. -/
theorem create_master_lines_explicit (sq : List HQuality) :
    create_master_lines sq
      = ["#EXTM3U", "#EXT-X-VERSION:3"] ++ sq.flatMap (fun q =>
          [(match q with
            | .q480p => "#EXT-X-STREAM-INF:BANDWIDTH=1000000,RESOLUTION=854x480"
            | .q720p => "#EXT-X-STREAM-INF:BANDWIDTH=2500000,RESOLUTION=1280x720"
            | .q1080p => "#EXT-X-STREAM-INF:BANDWIDTH=5000000,RESOLUTION=1920x1080"
            | .q4k => "#EXT-X-STREAM-INF:BANDWIDTH=20000000,RESOLUTION=3840x2160"),
           hqStr q ++ "/playlist.m3u8"]) := by
  induction sq with
  | nil => decide
  | cons q rest ih =>
    simp only [create_master_lines] at ih
    have hflat := List.append_cancel_left ih
    simp only [create_master_lines, List.flatMap_cons]
    rw [hflat]
    congr 1
    congr 1
    cases q <;> decide

end Hls

/-- C5: over any requested quality list, `convert_video_to_hls` succeeds
iff at least one rendition run succeeded; with zero successes the master
playlist entry on disk is unchanged (none is written) and the call
reports failure; with at least one success the master playlist is
written and holds exactly the successful qualities, in the requested
order, each annotated with `BANDWIDTH` equal to the ladder bitrate
(in k) times 1000 and the ladder `RESOLUTION`. -/
theorem C5_master_lists_successful_renditions
    (fs : Hls.HlsFS) (original_path : String) (qs : List Hls.HQuality)
    (runs : Hls.HQuality → Hls.HlsRun) :
    ((Hls.convert_video_to_hls fs original_path qs runs).1 = true
        ↔ qs.filter (fun q => (runs q).success) ≠ []) ∧
    (qs.filter (fun q => (runs q).success) = [] →
      (Hls.convert_video_to_hls fs original_path qs runs).1 = false ∧
      Transcoding.alookup (Hls.convert_video_to_hls fs original_path qs runs).2.files
          (Hls.get_master_playlist_path original_path)
        = Transcoding.alookup fs.files (Hls.get_master_playlist_path original_path)) ∧
    (qs.filter (fun q => (runs q).success) ≠ [] →
      Transcoding.alookup (Hls.convert_video_to_hls fs original_path qs runs).2.files
          (Hls.get_master_playlist_path original_path)
        = some (Hls.create_master_playlist (qs.filter (fun q => (runs q).success)))) ∧
    (∀ sq : List Hls.HQuality, Hls.create_master_lines sq
        = ["#EXTM3U", "#EXT-X-VERSION:3"] ++ sq.flatMap (fun q =>
            [(match q with
              | .q480p => "#EXT-X-STREAM-INF:BANDWIDTH=1000000,RESOLUTION=854x480"
              | .q720p => "#EXT-X-STREAM-INF:BANDWIDTH=2500000,RESOLUTION=1280x720"
              | .q1080p => "#EXT-X-STREAM-INF:BANDWIDTH=5000000,RESOLUTION=1920x1080"
              | .q4k => "#EXT-X-STREAM-INF:BANDWIDTH=20000000,RESOLUTION=3840x2160"),
             Hls.hqStr q ++ "/playlist.m3u8"])) ∧
    (∀ q : Hls.HQuality,
      (pyDigits (pyReplace "k".data "000".data
          (Hls.HLS_QUALITY_SETTINGS q).bitrate.data)).getD 0
        = 1000 * (match q with
            | .q480p => 1000 | .q720p => 2500 | .q1080p => 5000 | .q4k => 20000)) := by
  have hloop1 := Hls.convertLoop_fst original_path runs qs fs
  have hloopm := Hls.convertLoop_master original_path runs qs fs
  refine ⟨?_, ?_, ?_, Hls.create_master_lines_explicit, ?_⟩
  · constructor
    · intro h hempty
      simp [Hls.convert_video_to_hls, hloop1, hempty] at h
    · intro hne
      simp [Hls.convert_video_to_hls, hloop1, List.isEmpty_iff, hne]
  · intro hempty
    constructor
    · simp [Hls.convert_video_to_hls, hloop1, hempty]
    · simp only [Hls.convert_video_to_hls, hloop1, hempty, List.isEmpty_nil, if_true]
      exact hloopm
  · intro hne
    simp only [Hls.convert_video_to_hls, hloop1, List.isEmpty_iff, hne, if_neg hne]
    exact Transcoding.alookup_aset _ _ _
  · intro q
    cases q <;> decide

set_option maxRecDepth 10000 in
/-- C5 witness: outcomes `[480p: success, 720p: fail, 1080p: success]`
produce a master playlist listing exactly 480p then 1080p, with their
ladder bandwidths and resolutions. -/
theorem C5_witness :
    (Hls.convert_video_to_hls ⟨[]⟩ "/videos/UUID.mp4"
        [.q480p, .q720p, .q1080p]
        (fun q => match q with
          | .q480p => ⟨true, "PL480"⟩
          | .q720p => ⟨false, ""⟩
          | .q1080p => ⟨true, "PL1080"⟩
          | .q4k => ⟨false, ""⟩)).1 = true ∧
    Transcoding.alookup
        (Hls.convert_video_to_hls ⟨[]⟩ "/videos/UUID.mp4"
          [.q480p, .q720p, .q1080p]
          (fun q => match q with
            | .q480p => ⟨true, "PL480"⟩
            | .q720p => ⟨false, ""⟩
            | .q1080p => ⟨true, "PL1080"⟩
            | .q4k => ⟨false, ""⟩)).2.files
        (Hls.get_master_playlist_path "/videos/UUID.mp4")
      = some ("#EXTM3U\n#EXT-X-VERSION:3\n"
          ++ "#EXT-X-STREAM-INF:BANDWIDTH=1000000,RESOLUTION=854x480\n"
          ++ "480p/playlist.m3u8\n"
          ++ "#EXT-X-STREAM-INF:BANDWIDTH=5000000,RESOLUTION=1920x1080\n"
          ++ "1080p/playlist.m3u8\n") := by
  have h := C5_master_lists_successful_renditions ⟨[]⟩ "/videos/UUID.mp4"
    [.q480p, .q720p, .q1080p]
    (fun q => match q with
      | .q480p => ⟨true, "PL480"⟩
      | .q720p => ⟨false, ""⟩
      | .q1080p => ⟨true, "PL1080"⟩
      | .q4k => ⟨false, ""⟩)
  exact ⟨h.1.mpr (by decide), (h.2.2.1 (by decide)).trans (by decide)⟩

/-- C6: when `master.m3u8` already exists for the asset, the convert-hls
endpoint answers "HLS conversion already completed" with the list of
existing HLS quality levels and spawns no background conversion task —
zero encoder invocations. -/
theorem C6_convert_endpoint_idempotent
    (fs : Hls.HlsFS) (file_path : String)
    (h : Hls.is_hls_available fs file_path = true) :
    Hls.convertHlsEndpoint fs file_path
      = { message := "HLS conversion already completed"
          available_qualities := some (Hls.get_available_hls_qualities fs file_path)
          tasksSpawned := 0 } := by
  simp [Hls.convertHlsEndpoint, h]

/-- C6 witness: a converted asset with a 720p rendition on disk. -/
theorem C6_witness :
    Hls.convertHlsEndpoint
        ⟨[("/videos/UUID_hls/master.m3u8", "M"),
          ("/videos/UUID_hls/720p/playlist.m3u8", "P")]⟩ "/videos/UUID.mp4"
      = { message := "HLS conversion already completed"
          available_qualities := some ["720p"]
          tasksSpawned := 0 } := by
  have h := C6_convert_endpoint_idempotent
    ⟨[("/videos/UUID_hls/master.m3u8", "M"),
      ("/videos/UUID_hls/720p/playlist.m3u8", "P")]⟩ "/videos/UUID.mp4" (by decide)
  exact h.trans (by decide)

/-- C7 (code bug): with no master manifest on disk (and no conversion
job), the progress endpoint does not return the documented
`not_started` snapshot — `videos.py:1419` calls
`hls_service.get_conversion_progress`, which does not exist in
`hls_service.py`, so the request raises `AttributeError` (surfacing as
HTTP 500). When the master manifest exists the endpoint does return the
well-formed `completed` snapshot. -/
theorem C7_progress_endpoint_raises :
    Hls.get_hls_conversion_progress ⟨[]⟩ "/videos/UUID.mp4"
      = .error .attributeError ∧
    Hls.get_hls_conversion_progress
        ⟨[("/videos/UUID_hls/master.m3u8", "M")]⟩ "/videos/UUID.mp4"
      = .ok ⟨"completed", 100, none, 4, 4, none⟩ := by
  decide

end VideoServer

